import Mathlib

/-!
Shallow embedding of the translytics ingestion script (src/scripts/read_data.py).

Modelling conventions:
* JSON records are modelled after parsing: a possibly missing key becomes an
  `Option` field, and the Python pattern of indexing keys under a
  `try ... except KeyError` becomes the `Option` monad.
* Python integers are `Int`; the exact values computed by `statistics.mean`
  and `statistics.median` on integer data are modelled in `ℚ` (the library
  computes the exact ratio of the exact sum before rounding), and the builtin
  `round` is modelled as rounding half to even, which is the Python rule.
* Python dictionaries that accumulate lists are association lists in
  insertion order; `d[k].append(v)` with a `KeyError` fallback becomes
  `dictAppend`.
* Timestamps: `datetime.fromtimestamp(s, tz=timezone.utc)` is exact on
  integer epoch seconds, so a UTC instant is represented by its integer
  epoch second count.
* Raising an uncaught exception is modelled by `Except.error`.
-/

namespace Translytics

/-- Number of seconds deviance for a bus to be considered very late or very
early (the constant HIGH_DELAY = 300 in the source). -/
def HIGH_DELAY : Int := 300

/-- UTC instant produced by datetime.fromtimestamp with tz=timezone.utc,
represented exactly by its integer epoch seconds. -/
structure UTCTime where
  epochSeconds : Int
  deriving DecidableEq

/-- Conversion from integer epoch seconds to a UTC instant; exact on
integer inputs. -/
def fromtimestampUTC (s : Int) : UTCTime := ⟨s⟩

/-- The arrival sub-object of a stop-time update; delay and time keys may be
missing. -/
structure Arrival where
  delay : Option Int
  time : Option Int
  deriving DecidableEq

/-- The departure sub-object of a stop-time update. -/
structure Departure where
  delay : Option Int
  deriving DecidableEq

/-- One stop-time-update record of a trip update. Every key may be missing. -/
structure StopTimeUpdate where
  stopSequence : Option Int
  arrival : Option Arrival
  departure : Option Departure
  stopId : Option String
  deriving DecidableEq

/-- The trip sub-object of a trip update. -/
structure TripDescriptor where
  startDate : Option String
  scheduleRelationship : Option String
  routeId : Option String
  directionId : Option Int
  deriving DecidableEq

/-- The vehicle sub-object of a trip update. -/
structure VehicleLabel where
  label : Option String
  deriving DecidableEq

/-- The tripUpdate sub-object of a trip record. -/
structure TripUpdate where
  trip : Option TripDescriptor
  vehicle : Option VehicleLabel
  stopTimeUpdate : Option (List StopTimeUpdate)
  deriving DecidableEq

/-- One decoded trip record of the snapshot file. -/
structure TripRecord where
  id : Option String
  tripUpdate : Option TripUpdate
  deriving DecidableEq

/-- Composite route key: (route_id, direction_id). -/
abbrev RouteKey := String × Int

/-- Embedding of get_trip_info: extracts the route key, the stop-time-update
list, the trip id and the vehicle label; any missing key raises KeyError,
which the caller catches, so the whole extraction is an `Option`. -/
def get_trip_info (trip_data : TripRecord) :
    Option (RouteKey × List StopTimeUpdate × String × String) := do
  let trip_id ← trip_data.id
  let trip_update ← trip_data.tripUpdate
  let trip ← trip_update.trip
  let _trip_date ← trip.startDate
  let _schedule_relationship ← trip.scheduleRelationship
  let route_id ← trip.routeId
  let direction_id ← trip.directionId
  let veh ← trip_update.vehicle
  let vehicle ← veh.label
  let stop_time_updates ← trip_update.stopTimeUpdate
  return ((route_id, direction_id), stop_time_updates, trip_id, vehicle)

/-- Embedding of get_stop_info: returns (stop_id, arrival delay, arrival
time in epoch seconds), or the None sentinel when any required key
(stopSequence, arrival, arrival.delay, arrival.time, departure,
departure.delay, stopId) is missing — the KeyError is caught inside. -/
def get_stop_info (stop : StopTimeUpdate) : Option (String × Int × Int) := do
  let _stop_sequence ← stop.stopSequence
  let arr ← stop.arrival
  let arrival_delay ← arr.delay
  let arrival_time ← arr.time
  let dep ← stop.departure
  let _departure_delay ← dep.delay
  let stop_id ← stop.stopId
  return (stop_id, arrival_delay, arrival_time)

/-- Embedding of get_next_stop_info: None on an empty update list, else
get_stop_info of the first update. -/
def get_next_stop_info (stop_updates : List StopTimeUpdate) :
    Option (String × Int × Int) :=
  match stop_updates with
  | [] => none
  | stop :: _ => get_stop_info stop

/-- Rounding rule of the Python builtin round on exact values: round half to
even. -/
def pyRound (q : ℚ) : Int :=
  if q - (q.floor : ℚ) < 1 / 2 then q.floor
  else if 1 / 2 < q - (q.floor : ℚ) then q.floor + 1
  else if q.floor % 2 = 0 then q.floor else q.floor + 1

/-- Exact value of statistics.mean on integer data. -/
def pyMean (delays : List Int) : ℚ :=
  ((delays.sum : Int) : ℚ) / ((delays.length : Nat) : ℚ)

/-- One step of insertion sort. -/
def insortInsert (x : Int) : List Int → List Int
  | [] => [x]
  | y :: ys => if x ≤ y then x :: y :: ys else y :: insortInsert x ys

/-- Ascending sort of the data, as done by statistics.median via sorted. -/
def pySorted (l : List Int) : List Int := l.foldr insortInsert []

/-- Exact value of statistics.median on integer data: middle element of the
sorted data for odd length, exact average of the two middle elements for
even length. -/
def pyMedian (l : List Int) : ℚ :=
  if (pySorted l).length % 2 = 1 then
    (((pySorted l).getD ((pySorted l).length / 2) 0 : Int) : ℚ)
  else
    ((((pySorted l).getD ((pySorted l).length / 2 - 1) 0 : Int) : ℚ)
      + (((pySorted l).getD ((pySorted l).length / 2) 0 : Int) : ℚ)) / 2

/-- The statistics dictionary produced by get_stats. -/
structure Stats where
  mean : Int
  median : Int
  count : Nat
  very_early : Nat
  very_late : Nat
  deriving DecidableEq

/-- Embedding of get_stats. -/
def get_stats (delays : List Int) : Stats where
  mean := pyRound (pyMean delays)
  median := pyRound (pyMedian delays)
  count := delays.length
  very_early := delays.countP (fun d => decide (d ≤ -HIGH_DELAY))
  very_late := delays.countP (fun d => decide (d ≥ HIGH_DELAY))

/-- Lookup of a key in a Python dict of lists (association list in
insertion order); a missing key yields the empty bucket. -/
def bucket {κ : Type} [DecidableEq κ] (m : List (κ × List Int)) (k : κ) :
    List Int :=
  match m with
  | [] => []
  | p :: rest => if p.1 = k then p.2 else bucket rest k

/-- Embedding of the Python idiom try m[k].append(d) except KeyError:
m[k] = [d] — append to the entry of k when present, else insert a new
entry at the end (dict insertion order). -/
def dictAppend {κ : Type} [DecidableEq κ] (k : κ) (d : Int) :
    List (κ × List Int) → List (κ × List Int)
  | [] => [(k, [d])]
  | p :: m => if p.1 = k then (p.1, p.2 ++ [d]) :: m else p :: dictAppend k d m

/-- Body of the inner loop of read_data over the stop-time updates of one
trip: unparseable updates are skipped, parseable ones append the arrival
delay to the bucket of their stop id. -/
def stopFold (stops : List (String × List Int)) (stop : StopTimeUpdate) :
    List (String × List Int) :=
  match get_stop_info stop with
  | none => stops
  | some (stop_id, delay, _arrival) => dictAppend stop_id delay stops

/-- Body of the main loop of read_data for one trip record: a record whose
trip info is missing keys is skipped; a record whose first stop-time update
is missing (empty list) or unparseable is skipped; otherwise the first
arrival delay goes to the route bucket and the loop over all stop-time
updates fills the stop buckets.  (The current_route block of the source is
dead code — current_route is never set to a value other than None — and the
commented-out statement accumulation is omitted.) -/
def processTrip (acc : List (RouteKey × List Int) × List (String × List Int))
    (trip_data : TripRecord) :
    List (RouteKey × List Int) × List (String × List Int) :=
  match get_trip_info trip_data with
  | none => acc
  | some (route_key, stop_time_updates, _trip_id, _vehicle) =>
    match get_next_stop_info stop_time_updates with
    | none => acc
    | some (_, delay, _) =>
      (dictAppend route_key delay acc.1, stop_time_updates.foldl stopFold acc.2)

/-- Embedding of read_data on a decoded snapshot file: returns the pair
(routes, stops) of delay-bucket maps. -/
def read_data (data : List TripRecord) :
    List (RouteKey × List Int) × List (String × List Int) :=
  data.foldl processTrip ([], [])

/-- Embedding of get_route_stats: reduce every route bucket. -/
def get_route_stats (route_data : List (RouteKey × List Int)) :
    List (RouteKey × Stats) :=
  route_data.map (fun p => (p.1, get_stats p.2))

/-- Embedding of get_stop_stats (the aggregation function at line 97):
reduce every stop bucket. -/
def get_stop_stats (stop_data : List (String × List Int)) :
    List (String × Stats) :=
  stop_data.map (fun p => (p.1, get_stats p.2))

/-- The delays that the stop-time updates of one trip would contribute to
the bucket of a given stop id, in order: the arrival delays of the
parseable updates whose stop id matches. -/
def stopDelaysOf (stus : List StopTimeUpdate) (sid : String) : List Int :=
  stus.filterMap (fun stop =>
    match get_stop_info stop with
    | some (s, d, _) => if s = sid then some d else none
    | none => none)

/-- One translation entry: a language code and a text. -/
structure Translation where
  language : String
  text : String
  deriving DecidableEq

/-- Embedding of get_english: text of the first entry with language code
"en", else the empty string. -/
def get_english : List Translation → String
  | [] => ""
  | t :: rest => if t.language = "en" then t.text else get_english rest

/-- One row of the update_time table. -/
structure UpdateTimeRow where
  day : Int
  update_time : Int
  deriving DecidableEq

/-- One iteration of the loop in get_last_update_time over a successful
query result.  The Python line result = result.one() yields None when the
day has no row; the subsequent attribute accesses result.update_time (when
the accumulator is still None — the or-condition short-circuits) or
result.day (otherwise) then raise AttributeError, modelled as an error. -/
def updateTimeStep (today : Int) (acc : Option Int)
    (result : Option UpdateTimeRow) : Except Unit (Option Int) :=
  match acc with
  | none =>
    match result with
    | none => .error ()
    | some row => .ok (some row.update_time)
  | some t =>
    match result with
    | none => .error ()
    | some row => if row.day = today then .ok (some row.update_time) else .ok (some t)

/-- Embedding of get_last_update_time over the list of successful query
results (the driver returns them in submission order: today first, then
yesterday, but the fold is stated for any order); each element is the
optional single row found for the queried day. -/
def get_last_update_time (results : List (Option UpdateTimeRow))
    (today : Int) : Except Unit (Option Int) :=
  results.foldlM (updateTimeStep today) none

/-- The vehicle sub-object of a position record. -/
structure VehicleIdLabel where
  id : String
  label : String
  deriving DecidableEq

/-- The trip sub-object of a position record. -/
structure PositionTrip where
  routeId : String
  directionId : Int
  deriving DecidableEq

/-- The position sub-object of a position record; the coordinates are kept
as exact values (they are copied, never computed with). -/
structure Coordinates where
  latitude : ℚ
  longitude : ℚ
  deriving DecidableEq

/-- One well-formed vehicle position record (all required keys present). -/
structure VehiclePosition where
  vehicle : VehicleIdLabel
  trip : PositionTrip
  currentStatus : String
  currentStopSequence : Int
  stopId : String
  position : Coordinates
  timestamp : Int
  deriving DecidableEq

/-- The tuple built by read_position_update for one record, with named
fields in the original order. -/
structure PositionRow where
  vehicle_id : String
  vehicle_label : String
  route_id : String
  direction_id : Int
  current_status : String
  stop_sequence : Int
  stop_id : String
  latitude : ℚ
  longitude : ℚ
  last_update : UTCTime
  update_time : UTCTime
  deriving DecidableEq

/-- Embedding of read_position_update on well-formed records: projects each
record into the parameter tuple, converting the integer epoch timestamp to
a UTC instant. -/
def read_position_update (data : List VehiclePosition)
    (upload_time : UTCTime) : List PositionRow :=
  data.map fun u =>
    { vehicle_id := u.vehicle.id
      vehicle_label := u.vehicle.label
      route_id := u.trip.routeId
      direction_id := u.trip.directionId
      current_status := u.currentStatus
      stop_sequence := u.currentStopSequence
      stop_id := u.stopId
      latitude := u.position.latitude
      longitude := u.position.longitude
      last_update := fromtimestampUTC u.timestamp
      update_time := upload_time }

/-- Re-serialisation of an extracted tuple back into a position record in
the original field order, stated from the round-trip wording of the spec
(the timestamp goes back to its epoch seconds). -/
def reserializePosition (r : PositionRow) : VehiclePosition :=
  { vehicle := ⟨r.vehicle_id, r.vehicle_label⟩
    trip := ⟨r.route_id, r.direction_id⟩
    currentStatus := r.current_status
    currentStopSequence := r.stop_sequence
    stopId := r.stop_id
    position := ⟨r.latitude, r.longitude⟩
    timestamp := r.last_update.epochSeconds }

/-- Python dict indexing d[k]: KeyError (an error) when the key is absent. -/
def pyKeyGet {α : Type} (o : Option α) : Except Unit α :=
  match o with
  | some x => .ok x
  | none => .error ()

/-- Python list indexing l[i]: IndexError (an error) when out of range. -/
def listIndex {α : Type} (l : List α) (i : Nat) : Except Unit α :=
  match l.get? i with
  | some x => .ok x
  | none => .error ()

/-- State of the batching loop of ingest_stop_stats_by_time: already
executed batches, current batch of bound statements, and the statement
count of the current batch. -/
structure IngestState (δ : Type) where
  executed : List (List (String × δ × Stats))
  batch : List (String × δ × Stats)
  count : Nat

/-- Flush done at the top of the loop body of ingest_stop_stats_by_time:
when the current batch holds 30 statements it is executed and a fresh
batch is started. -/
def flushAt30 {δ : Type} (st : IngestState δ) : IngestState δ :=
  if st.count = 30 then IngestState.mk (st.executed ++ [st.batch]) [] 0 else st

/-- One iteration of the loop of ingest_stop_stats_by_time for a stop and
its statistics: flush the batch at 30 statements, look the stop up in the
detail results (KeyError if absent), skip the stop when the detail lookup
returned zero rows, otherwise bind a statement from row 0. -/
def stopStatStep {δ : Type} (stop_results : String → Option (List δ))
    (st : IngestState δ) (entry : String × Stats) :
    Except Unit (IngestState δ) := do
  let st1 := flushAt30 st
  let all_stop_details ← pyKeyGet (stop_results entry.1)
  if all_stop_details.length = 0 then
    return st1
  else
    let stop_details ← listIndex all_stop_details 0
    return IngestState.mk st1.executed
      (st1.batch ++ [(entry.1, stop_details, entry.2)]) (st1.count + 1)

/-- Embedding of ingest_stop_stats_by_time: the value is the list of
executed batches (the final, possibly partial batch is executed after the
loop).  δ is the type of one detail row. -/
def ingest_stop_stats_by_time {δ : Type} (stop_stats : List (String × Stats))
    (stop_results : String → Option (List δ)) :
    Except Unit (List (List (String × δ × Stats))) := do
  let st ← stop_stats.foldlM (stopStatStep stop_results) (IngestState.mk [] [] 0)
  return st.executed ++ [st.batch]

/-! ### Lemmas about the dictionary operations of read_data -/

theorem bucket_dictAppend_same {κ : Type} [DecidableEq κ]
    (m : List (κ × List Int)) (k : κ) (d : Int) :
    bucket (dictAppend k d m) k = bucket m k ++ [d] := by
  induction m with
  | nil => simp [dictAppend, bucket]
  | cons p rest ih =>
    by_cases h : p.1 = k
    · simp [dictAppend, bucket, h]
    · simp [dictAppend, bucket, h, ih]

theorem bucket_dictAppend_ne {κ : Type} [DecidableEq κ]
    (m : List (κ × List Int)) (k k2 : κ) (d : Int) (hne : k2 ≠ k) :
    bucket (dictAppend k d m) k2 = bucket m k2 := by
  induction m with
  | nil => simp [dictAppend, bucket, Ne.symm hne]
  | cons p rest ih =>
    by_cases h : p.1 = k
    · simp [dictAppend, bucket, h, Ne.symm hne]
    · by_cases h2 : p.1 = k2 <;> simp [dictAppend, bucket, h, h2, hne, ih]

theorem dictAppend_ne_nil {κ : Type} [DecidableEq κ] (k : κ) (d : Int) :
    ∀ (m : List (κ × List Int)), (∀ p ∈ m, p.2 ≠ []) →
      ∀ p ∈ dictAppend k d m, p.2 ≠ []
  | [], _, p, hp => by
    simp [dictAppend] at hp
    simp [hp]
  | q :: rest, hm, p, hp => by
    by_cases h : q.1 = k
    · simp [dictAppend, h] at hp
      rcases hp with hp | hp
      · have hq : q.2 ≠ [] := hm q (List.mem_cons_self q rest)
        simp [hp, hq]
      · exact hm p (List.mem_cons_of_mem q hp)
    · simp [dictAppend, h] at hp
      rcases hp with hp | hp
      · exact hp ▸ hm q (List.mem_cons_self q rest)
      · exact dictAppend_ne_nil k d rest (fun r hr => hm r (List.mem_cons_of_mem q hr)) p hp

theorem foldl_stopFold_bucket :
    ∀ (stus : List StopTimeUpdate) (s : List (String × List Int)) (sid : String),
      bucket (stus.foldl stopFold s) sid = bucket s sid ++ stopDelaysOf stus sid
  | [], s, sid => by simp [stopDelaysOf]
  | stop :: rest, s, sid => by
    rw [List.foldl_cons, foldl_stopFold_bucket rest (stopFold s stop) sid]
    cases hg : get_stop_info stop with
    | none => simp [stopFold, stopDelaysOf, List.filterMap_cons, hg]
    | some info =>
      obtain ⟨s0, d0, t0⟩ := info
      by_cases h : s0 = sid
      · subst h
        simp [stopFold, stopDelaysOf, List.filterMap_cons, hg, bucket_dictAppend_same]
      · simp [stopFold, stopDelaysOf, List.filterMap_cons, hg, h,
          bucket_dictAppend_ne s s0 sid d0 (Ne.symm h)]

theorem foldl_stopFold_ne_nil :
    ∀ (stus : List StopTimeUpdate) (s : List (String × List Int)),
      (∀ p ∈ s, p.2 ≠ []) → ∀ p ∈ stus.foldl stopFold s, p.2 ≠ []
  | [], _, hs => hs
  | stop :: rest, s, hs => by
    rw [List.foldl_cons]
    apply foldl_stopFold_ne_nil rest
    cases hg : get_stop_info stop with
    | none => simpa [stopFold, hg] using hs
    | some info =>
      obtain ⟨s0, d0, t0⟩ := info
      simp only [stopFold, hg]
      exact dictAppend_ne_nil s0 d0 s hs

theorem processTrip_ne_nil (acc : List (RouteKey × List Int) × List (String × List Int))
    (td : TripRecord)
    (h1 : ∀ p ∈ acc.1, p.2 ≠ []) (h2 : ∀ p ∈ acc.2, p.2 ≠ []) :
    (∀ p ∈ (processTrip acc td).1, p.2 ≠ []) ∧ (∀ p ∈ (processTrip acc td).2, p.2 ≠ []) := by
  cases hti : get_trip_info td with
  | none => simp only [processTrip, hti]; exact ⟨h1, h2⟩
  | some info =>
    obtain ⟨rk, stus, tid, veh⟩ := info
    cases hn : get_next_stop_info stus with
    | none => simp only [processTrip, hti, hn]; exact ⟨h1, h2⟩
    | some info2 =>
      obtain ⟨sid, d, t⟩ := info2
      simp only [processTrip, hti, hn]
      exact ⟨dictAppend_ne_nil rk d acc.1 h1, foldl_stopFold_ne_nil stus acc.2 h2⟩

theorem foldl_processTrip_ne_nil :
    ∀ (data : List TripRecord) (acc : List (RouteKey × List Int) × List (String × List Int)),
      (∀ p ∈ acc.1, p.2 ≠ []) → (∀ p ∈ acc.2, p.2 ≠ []) →
      (∀ p ∈ (data.foldl processTrip acc).1, p.2 ≠ [])
        ∧ (∀ p ∈ (data.foldl processTrip acc).2, p.2 ≠ [])
  | [], _, h1, h2 => ⟨h1, h2⟩
  | td :: rest, acc, h1, h2 => by
    rw [List.foldl_cons]
    obtain ⟨g1, g2⟩ := processTrip_ne_nil acc td h1 h2
    exact foldl_processTrip_ne_nil rest (processTrip acc td) g1 g2

/-! ### Concrete records used for counterexamples and witnesses -/

/-- A fully populated stop-time update: stop S1, arrival delay 42, arrival
time 100, departure delay 7. -/
def stuGood : StopTimeUpdate := ⟨some 1, some ⟨some 42, some 100⟩, some ⟨some 7⟩, some "S1"⟩

/-- A stop-time update with every key missing. -/
def stuBad : StopTimeUpdate := ⟨none, none, none, none⟩

/-- A well-formed trip record for route R1 direction 0 with one parseable
stop-time update. -/
def tripGood : TripRecord :=
  ⟨some "t1", some ⟨some ⟨some "20261010", some "SCHEDULED", some "R1", some 0⟩,
    some ⟨some "v1"⟩, some [stuGood]⟩⟩

/-- A well-formed trip record whose only stop-time update is unparseable. -/
def tripOneBad : TripRecord :=
  ⟨some "t1", some ⟨some ⟨some "20261010", some "SCHEDULED", some "R1", some 0⟩,
    some ⟨some "v1"⟩, some [stuBad]⟩⟩

/-- A well-formed trip record whose first stop-time update is unparseable
and whose second is parseable. -/
def tripBadFirst : TripRecord :=
  ⟨some "t1", some ⟨some ⟨some "20261010", some "SCHEDULED", some "R1", some 0⟩,
    some ⟨some "v1"⟩, some [stuBad, stuGood]⟩⟩

/-! ### C1 -/

/-- C1 counterexample: tripOneBad is a successfully parsed trip record with
one stop-time update, yet read_data contributes no observation at all to
its RouteKey bucket (the routes map stays empty), because the first
stop-time update is unparseable and the whole trip is skipped.  This
refutes the claim that every trip with at least one stop-time update
contributes exactly one route observation. -/
theorem read_data_unparseable_first_stop_no_route_obs :
    get_trip_info tripOneBad = some (("R1", 0), [stuBad], "t1", "v1")
    ∧ ([stuBad] : List StopTimeUpdate) ≠ []
    ∧ (read_data [tripOneBad]).1 = [] := by
  refine ⟨rfl, ?_, rfl⟩
  simp

/-- C1 (amended): for a successfully parsed trip record, when the first
stop-time update exists and is parseable, read_data appends exactly one
observation — the arrival delay of the first stop-time update — to the
RouteKey bucket of the trip and changes no other route bucket; when the
stop-time-update list is empty or its first element is unparseable, the
routes map is unchanged. -/
theorem read_data_route_contribution (data : List TripRecord) (td : TripRecord)
    (rk : RouteKey) (stus : List StopTimeUpdate) (tid veh : String)
    (hti : get_trip_info td = some (rk, stus, tid, veh)) :
    (∀ sid d t, get_next_stop_info stus = some (sid, d, t) →
        bucket (read_data (data ++ [td])).1 rk = bucket (read_data data).1 rk ++ [d]
        ∧ ∀ k, k ≠ rk → bucket (read_data (data ++ [td])).1 k = bucket (read_data data).1 k)
    ∧ (get_next_stop_info stus = none →
        (read_data (data ++ [td])).1 = (read_data data).1) := by
  have hrd : read_data (data ++ [td]) = processTrip (read_data data) td := by
    simp [read_data, List.foldl_append]
  constructor
  · intro sid d t hn
    rw [hrd]
    simp only [processTrip, hti, hn]
    exact ⟨bucket_dictAppend_same _ _ _,
      fun k hk => bucket_dictAppend_ne _ _ _ _ hk⟩
  · intro hn
    rw [hrd]
    simp only [processTrip, hti, hn]

/-- Witness for C1 at a concrete input: appending tripGood adds exactly the
delay 42 to the bucket of route (R1, 0). -/
theorem read_data_route_contribution_witness :
    bucket (read_data ([] ++ [tripGood])).1 ("R1", 0)
      = bucket (read_data ([] : List TripRecord)).1 ("R1", 0) ++ [42] :=
  ((read_data_route_contribution [] tripGood ("R1", 0) [stuGood] "t1" "v1" rfl).1
    "S1" 42 100 rfl).1

/-! ### C2 -/

/-- C2 counterexample: tripBadFirst is a successfully parsed trip record
containing a parseable stop-time update (its second one), yet read_data
records no stop observation at all (the stops map stays empty), because
the first stop-time update is unparseable and the whole trip is skipped
before the stops loop.  This refutes the claim that every parseable
stop-time update of a successfully parsed trip is appended to its stop
bucket. -/
theorem read_data_skips_stops_when_first_unparseable :
    get_trip_info tripBadFirst = some (("R1", 0), [stuBad, stuGood], "t1", "v1")
    ∧ get_stop_info stuGood = some ("S1", 42, 100)
    ∧ (read_data [tripBadFirst]).2 = [] :=
  ⟨rfl, rfl, rfl⟩

/-- C2 (amended): for a successfully parsed trip record whose first
stop-time update is parseable, every parseable stop-time update of the
trip appends its arrival delay, in order, to the bucket of its stop id in
the stops map of read_data. -/
theorem read_data_stop_contribution (data : List TripRecord) (td : TripRecord)
    (rk : RouteKey) (stus : List StopTimeUpdate) (tid veh : String)
    (hti : get_trip_info td = some (rk, stus, tid, veh))
    (sid0 : String) (d0 t0 : Int)
    (h0 : get_next_stop_info stus = some (sid0, d0, t0)) (sid : String) :
    bucket (read_data (data ++ [td])).2 sid
      = bucket (read_data data).2 sid ++ stopDelaysOf stus sid := by
  have hrd : read_data (data ++ [td]) = processTrip (read_data data) td := by
    simp [read_data, List.foldl_append]
  rw [hrd]
  simp only [processTrip, hti, h0]
  exact foldl_stopFold_bucket stus (read_data data).2 sid

/-- Witness for C2 at a concrete input. -/
theorem read_data_stop_contribution_witness :
    bucket (read_data ([] ++ [tripGood])).2 "S1"
      = bucket (read_data ([] : List TripRecord)).2 "S1" ++ stopDelaysOf [stuGood] "S1" :=
  read_data_stop_contribution [] tripGood ("R1", 0) [stuGood] "t1" "v1" rfl
    "S1" 42 100 rfl "S1"

/-! ### C7 -/

/-- C7: every key of the routes map and of the stops map returned by
read_data is bound to a non-empty delay list, so the statistics reductions
get_route_stats and get_stop_stats never evaluate get_stats on an empty
list. -/
theorem read_data_buckets_nonempty (data : List TripRecord) :
    (∀ p ∈ (read_data data).1, p.2 ≠ []) ∧ (∀ p ∈ (read_data data).2, p.2 ≠ []) :=
  foldl_processTrip_ne_nil data ([], []) (by simp) (by simp)

/-- Witness for C7 at a concrete input: the bucket produced by tripGood is
the non-empty list with the delay 42. -/
theorem read_data_buckets_nonempty_witness : ([42] : List Int) ≠ [] :=
  (read_data_buckets_nonempty [tripGood]).1 (("R1", 0), [42]) (by decide)

/-! ### C3 -/

/-- C3 (evidence of the code bug): evaluation of get_last_update_time at
the failing inputs.  When neither day has a row, when only the yesterday
lookup finds a row, and even when only the today lookup finds a row, the
function dereferences the None returned by result.one and raises
AttributeError (the error value) instead of returning a timestamp or
None; only when both lookups return a row does it return normally, and
then the today row wins in either retrieval order. -/
theorem get_last_update_time_missing_rows_raise :
    get_last_update_time [none, none] 0 = .error ()
    ∧ get_last_update_time [none, some ⟨-1, 42⟩] 0 = .error ()
    ∧ get_last_update_time [some ⟨0, 42⟩, none] 0 = .error ()
    ∧ get_last_update_time [some ⟨0, 42⟩, some ⟨-1, 41⟩] 0 = .ok (some 42)
    ∧ get_last_update_time [some ⟨-1, 41⟩, some ⟨0, 42⟩] 0 = .ok (some 42) :=
  ⟨rfl, rfl, rfl, rfl, rfl⟩

/-! ### C4 -/

unseal Rat.add Rat.sub Rat.mul Rat.inv in
/-- C4 counterexample: on the input [-310, -5, 0, 301, 50] the mean field
computed by get_stats is round(36 / 5) = 7, not -1 as the claim states
(the sum of the list is 36, not -6). -/
theorem get_stats_scenario_mean_ne_neg_one :
    (get_stats [-310, -5, 0, 301, 50]).mean ≠ -1 := by decide

unseal Rat.add Rat.sub Rat.mul Rat.inv in
/-- C4 (amended): on the input [-310, -5, 0, 301, 50], get_stats returns
mean = round(36 / 5) = 7, median = 0, count = 5, very_early = 1 and
very_late = 1. -/
theorem get_stats_scenario_values :
    get_stats [-310, -5, 0, 301, 50] = ⟨7, 0, 5, 1, 1⟩ := by decide

/-! ### C5 -/

theorem ratFloor_eq_floor (q : ℚ) : q.floor = ⌊q⌋ := by
  rw [Rat.floor_def', Rat.floor_def]

theorem pyRound_ge (q : ℚ) (a : Int) (h : (a : ℚ) ≤ q) : a ≤ pyRound q := by
  have haf : a ≤ ⌊q⌋ := Int.le_floor.mpr h
  unfold pyRound
  rw [ratFloor_eq_floor]
  split_ifs <;> omega

theorem pyRound_le (q : ℚ) (b : Int) (h : q ≤ (b : ℚ)) : pyRound q ≤ b := by
  have hfb : ⌊q⌋ ≤ b := by
    have h2 := Int.floor_le_floor h
    rwa [Int.floor_intCast] at h2
  have hfq : (⌊q⌋ : ℚ) ≤ q := Int.floor_le q
  unfold pyRound
  rw [ratFloor_eq_floor]
  split_ifs with h1 h2
  · exact hfb
  · have hlt : (⌊q⌋ : ℚ) < q := by linarith
    have hltb : (⌊q⌋ : ℚ) < (b : ℚ) := lt_of_lt_of_le hlt h
    have hb2 : ⌊q⌋ < b := by exact_mod_cast hltb
    omega
  · exact hfb
  · have hhalf : (1 : ℚ) / 2 ≤ q - ⌊q⌋ := le_of_not_lt h1
    have hlt : (⌊q⌋ : ℚ) < q := by linarith
    have hltb : (⌊q⌋ : ℚ) < (b : ℚ) := lt_of_lt_of_le hlt h
    have hb2 : ⌊q⌋ < b := by exact_mod_cast hltb
    omega

theorem countP_very_le_length (l : List Int) :
    l.countP (fun d => decide (d ≤ -HIGH_DELAY))
      + l.countP (fun d => decide (d ≥ HIGH_DELAY)) ≤ l.length := by
  induction l with
  | nil => simp
  | cons x xs ih =>
    simp only [ge_iff_le, List.countP_cons, List.length_cons] at ih ⊢
    by_cases h1 : x ≤ -HIGH_DELAY <;> by_cases h2 : HIGH_DELAY ≤ x <;>
      simp [h1, h2] <;>
      simp only [HIGH_DELAY] at h1 h2 <;> omega

theorem pyMean_bounds (l : List Int) (a b : Int) (hne : l ≠ [])
    (ha : ∀ x ∈ l, a ≤ x) (hb : ∀ x ∈ l, x ≤ b) :
    (a : ℚ) ≤ pyMean l ∧ pyMean l ≤ (b : ℚ) := by
  have hlen : 0 < l.length := List.length_pos.mpr hne
  have hlenQ : 0 < ((l.length : Nat) : ℚ) := by exact_mod_cast hlen
  have hsum_ge : (l.length : Int) * a ≤ l.sum := by
    have h2 := List.card_nsmul_le_sum l a ha
    rwa [nsmul_eq_mul] at h2
  have hsum_le : l.sum ≤ (l.length : Int) * b := by
    have h2 := List.sum_le_card_nsmul l b hb
    rwa [nsmul_eq_mul] at h2
  unfold pyMean
  constructor
  · rw [le_div_iff₀ hlenQ]
    calc (a : ℚ) * ((l.length : Nat) : ℚ) = (((l.length : Int) * a : Int) : ℚ) := by
          push_cast; ring
    _ ≤ ((l.sum : Int) : ℚ) := by exact_mod_cast hsum_ge
  · rw [div_le_iff₀ hlenQ]
    calc ((l.sum : Int) : ℚ) ≤ (((l.length : Int) * b : Int) : ℚ) := by exact_mod_cast hsum_le
    _ = (b : ℚ) * ((l.length : Nat) : ℚ) := by push_cast; ring

theorem insortInsert_length (x : Int) : ∀ (l : List Int),
    (insortInsert x l).length = l.length + 1
  | [] => rfl
  | y :: ys => by
    unfold insortInsert
    split_ifs
    · rfl
    · simp [insortInsert_length x ys]

theorem mem_insortInsert (x z : Int) : ∀ (l : List Int),
    z ∈ insortInsert x l → z = x ∨ z ∈ l
  | [] => by
    intro h
    simp [insortInsert] at h
    exact Or.inl h
  | y :: ys => by
    intro h
    unfold insortInsert at h
    split_ifs at h
    · rcases List.mem_cons.mp h with h1 | h1
      · exact Or.inl h1
      · exact Or.inr h1
    · rcases List.mem_cons.mp h with h1 | h1
      · exact Or.inr (h1 ▸ List.mem_cons_self y ys)
      · rcases mem_insortInsert x z ys h1 with h2 | h2
        · exact Or.inl h2
        · exact Or.inr (List.mem_cons_of_mem y h2)

theorem pySorted_length (l : List Int) : (pySorted l).length = l.length := by
  induction l with
  | nil => rfl
  | cons x xs ih =>
    show (insortInsert x (pySorted xs)).length = xs.length + 1
    rw [insortInsert_length, ih]

theorem mem_pySorted (z : Int) : ∀ (l : List Int), z ∈ pySorted l → z ∈ l
  | [], h => by simp [pySorted] at h
  | x :: xs, h => by
    have h2 : z ∈ insortInsert x (pySorted xs) := h
    rcases mem_insortInsert x z (pySorted xs) h2 with h3 | h3
    · exact h3 ▸ List.mem_cons_self x xs
    · exact List.mem_cons_of_mem x (mem_pySorted z xs h3)

theorem getD_mem_of_lt : ∀ (l : List Int) (i : Nat), i < l.length → l.getD i 0 ∈ l
  | [], i, h => by simp at h
  | x :: xs, 0, _ => by simp
  | x :: xs, i + 1, h => by
    rw [List.getD_cons_succ]
    exact List.mem_cons_of_mem x (getD_mem_of_lt xs i (by simpa using h))

theorem pyMedian_bounds (l : List Int) (a b : Int) (hne : l ≠ [])
    (ha : ∀ x ∈ l, a ≤ x) (hb : ∀ x ∈ l, x ≤ b) :
    (a : ℚ) ≤ pyMedian l ∧ pyMedian l ≤ (b : ℚ) := by
  have hlen : (pySorted l).length = l.length := pySorted_length l
  have hpos : 0 < l.length := List.length_pos.mpr hne
  have hmem : ∀ i, i < (pySorted l).length → (pySorted l).getD i 0 ∈ l :=
    fun i hi => mem_pySorted _ l (getD_mem_of_lt (pySorted l) i hi)
  unfold pyMedian
  split_ifs with hodd
  · have hi : (pySorted l).length / 2 < (pySorted l).length := by omega
    have hm := hmem _ hi
    exact ⟨by exact_mod_cast ha _ hm, by exact_mod_cast hb _ hm⟩
  · have hn2 : 2 ≤ (pySorted l).length := by omega
    have hi1 : (pySorted l).length / 2 - 1 < (pySorted l).length := by omega
    have hi2 : (pySorted l).length / 2 < (pySorted l).length := by omega
    have hm1 := hmem _ hi1
    have hm2 := hmem _ hi2
    have ha1 : (a : ℚ) ≤ (((pySorted l).getD ((pySorted l).length / 2 - 1) 0 : Int) : ℚ) := by
      exact_mod_cast ha _ hm1
    have ha2 : (a : ℚ) ≤ (((pySorted l).getD ((pySorted l).length / 2) 0 : Int) : ℚ) := by
      exact_mod_cast ha _ hm2
    have hb1 : (((pySorted l).getD ((pySorted l).length / 2 - 1) 0 : Int) : ℚ) ≤ (b : ℚ) := by
      exact_mod_cast hb _ hm1
    have hb2 : (((pySorted l).getD ((pySorted l).length / 2) 0 : Int) : ℚ) ≤ (b : ℚ) := by
      exact_mod_cast hb _ hm2
    constructor
    · linarith
    · linarith

/-- C5: for every non-empty delay list, the statistics of get_stats
satisfy very_early + very_late ≤ count, and the rounded mean and rounded
median both lie between any lower bound and any upper bound of the list —
in particular between its minimum and its maximum. -/
theorem get_stats_bounds (l : List Int) (a b : Int) (hne : l ≠ [])
    (ha : ∀ x ∈ l, a ≤ x) (hb : ∀ x ∈ l, x ≤ b) :
    (get_stats l).very_early + (get_stats l).very_late ≤ (get_stats l).count
    ∧ a ≤ (get_stats l).mean ∧ (get_stats l).mean ≤ b
    ∧ a ≤ (get_stats l).median ∧ (get_stats l).median ≤ b := by
  obtain ⟨hm1, hm2⟩ := pyMean_bounds l a b hne ha hb
  obtain ⟨hd1, hd2⟩ := pyMedian_bounds l a b hne ha hb
  exact ⟨countP_very_le_length l, pyRound_ge _ _ hm1, pyRound_le _ _ hm2,
    pyRound_ge _ _ hd1, pyRound_le _ _ hd2⟩

/-- Witness for C5 at a concrete input, with the actual minimum and
maximum of the list as the bounds. -/
theorem get_stats_bounds_witness :
    (get_stats [-310, -5, 0, 301, 50]).very_early + (get_stats [-310, -5, 0, 301, 50]).very_late
        ≤ (get_stats [-310, -5, 0, 301, 50]).count
    ∧ -310 ≤ (get_stats [-310, -5, 0, 301, 50]).mean
    ∧ (get_stats [-310, -5, 0, 301, 50]).mean ≤ 301
    ∧ -310 ≤ (get_stats [-310, -5, 0, 301, 50]).median
    ∧ (get_stats [-310, -5, 0, 301, 50]).median ≤ 301 :=
  get_stats_bounds [-310, -5, 0, 301, 50] (-310) 301 (by decide) (by decide) (by decide)

/-! ### C6 -/

/-- C6: get_english returns the empty string when no entry of the
translation list has language code en; and when a matching entry exists
whose text is shared by every matching entry (the reading under which
"the matching entry" is well defined for all orderings of the list), it
returns exactly that text. -/
theorem get_english_correct (l : List Translation) :
    ((∀ t ∈ l, t.language ≠ "en") → get_english l = "")
    ∧ (∀ s : String, (∃ t ∈ l, t.language = "en" ∧ t.text = s) →
        (∀ t ∈ l, t.language = "en" → t.text = s) → get_english l = s) := by
  induction l with
  | nil =>
    refine ⟨fun _ => rfl, ?_⟩
    rintro s ⟨t, ht, _⟩ _
    exact absurd ht (List.not_mem_nil t)
  | cons t rest ih =>
    constructor
    · intro h
      have hne : t.language ≠ "en" := h t (List.mem_cons_self t rest)
      simp only [get_english, if_neg hne]
      exact ih.1 fun u hu => h u (List.mem_cons_of_mem t hu)
    · rintro s ⟨u, hu, hulang, hutext⟩ hall
      by_cases hen : t.language = "en"
      · simp only [get_english, if_pos hen]
        exact hall t (List.mem_cons_self t rest) hen
      · simp only [get_english, if_neg hen]
        apply ih.2 s
        · refine ⟨u, ?_, hulang, hutext⟩
          rcases List.mem_cons.mp hu with hu1 | hu1
          · exact absurd (hu1 ▸ hulang) hen
          · exact hu1
        · exact fun v hv => hall v (List.mem_cons_of_mem t hv)

/-- Witness for C6 at a concrete input. -/
theorem get_english_correct_witness :
    get_english [⟨"fr", "bonjour"⟩, ⟨"en", "hello"⟩] = "hello" :=
  (get_english_correct [⟨"fr", "bonjour"⟩, ⟨"en", "hello"⟩]).2 "hello"
    ⟨⟨"en", "hello"⟩, by decide, rfl, rfl⟩ (by decide)

/-! ### C8 -/

theorem flushAt30_inv {δ : Type} (stop_results : String → Option (List δ))
    (st : IngestState δ)
    (hex : ∀ b ∈ st.executed, ∀ e ∈ b, stop_results e.1 ≠ some [])
    (hb : ∀ e ∈ st.batch, stop_results e.1 ≠ some []) :
    (∀ b ∈ (flushAt30 st).executed, ∀ e ∈ b, stop_results e.1 ≠ some [])
    ∧ (∀ e ∈ (flushAt30 st).batch, stop_results e.1 ≠ some []) := by
  unfold flushAt30
  split_ifs with hc
  · constructor
    · intro b hbm
      rcases List.mem_append.mp hbm with h | h
      · exact hex b h
      · rw [List.mem_singleton] at h
        subst h
        exact hb
    · intro e he
      exact absurd he (List.not_mem_nil e)
  · exact ⟨hex, hb⟩

theorem foldlM_stopStatStep_ok {δ : Type} (stop_results : String → Option (List δ)) :
    ∀ (l : List (String × Stats)) (st : IngestState δ),
      (∀ p ∈ l, (stop_results p.1).isSome) →
      (∀ b ∈ st.executed, ∀ e ∈ b, stop_results e.1 ≠ some []) →
      (∀ e ∈ st.batch, stop_results e.1 ≠ some []) →
      ∃ st2, l.foldlM (stopStatStep stop_results) st = .ok st2
        ∧ (∀ b ∈ st2.executed, ∀ e ∈ b, stop_results e.1 ≠ some [])
        ∧ (∀ e ∈ st2.batch, stop_results e.1 ≠ some [])
  | [], st, _, hex, hb => ⟨st, rfl, hex, hb⟩
  | entry :: rest, st, hall, hex, hb => by
    obtain ⟨rows, hrows⟩ :=
      Option.isSome_iff_exists.mp (hall entry (List.mem_cons_self entry rest))
    have hall2 : ∀ p ∈ rest, (stop_results p.1).isSome :=
      fun p hp => hall p (List.mem_cons_of_mem entry hp)
    obtain ⟨hex1, hb1⟩ := flushAt30_inv stop_results st hex hb
    cases rows with
    | nil =>
      have hstep : stopStatStep stop_results st entry = .ok (flushAt30 st) := by
        simp only [stopStatStep, hrows, pyKeyGet]
        rfl
      obtain ⟨st2, hrec, hinv1, hinv2⟩ :=
        foldlM_stopStatStep_ok stop_results rest (flushAt30 st) hall2 hex1 hb1
      refine ⟨st2, ?_, hinv1, hinv2⟩
      rw [List.foldlM_cons, hstep]
      exact hrec
    | cons r rtail =>
      have hstep : stopStatStep stop_results st entry
          = .ok (IngestState.mk (flushAt30 st).executed
              ((flushAt30 st).batch ++ [(entry.1, r, entry.2)])
              ((flushAt30 st).count + 1)) := by
        simp only [stopStatStep, hrows, pyKeyGet, listIndex]
        rfl
      have hbnew : ∀ e ∈ (flushAt30 st).batch ++ [(entry.1, r, entry.2)],
          stop_results e.1 ≠ some [] := by
        intro e he
        rcases List.mem_append.mp he with h | h
        · exact hb1 e h
        · rw [List.mem_singleton] at h
          subst h
          rw [hrows]
          simp
      obtain ⟨st2, hrec, hinv1, hinv2⟩ :=
        foldlM_stopStatStep_ok stop_results rest
          (IngestState.mk (flushAt30 st).executed
            ((flushAt30 st).batch ++ [(entry.1, r, entry.2)])
            ((flushAt30 st).count + 1)) hall2 hex1 hbnew
      refine ⟨st2, ?_, hinv1, hinv2⟩
      rw [List.foldlM_cons, hstep]
      exact hrec

/-- C8: when every stop id of the statistics map has a detail-lookup
result, ingest_stop_stats_by_time returns normally (no raise), and every
stop whose detail lookup returned zero rows appears in no statement of
any executed batch. -/
theorem ingest_stop_stats_by_time_skips_empty {δ : Type}
    (stop_stats : List (String × Stats)) (stop_results : String → Option (List δ))
    (hall : ∀ p ∈ stop_stats, (stop_results p.1).isSome) :
    ∃ batches, ingest_stop_stats_by_time stop_stats stop_results = .ok batches
      ∧ ∀ sid, stop_results sid = some [] →
          ∀ b ∈ batches, ∀ e ∈ b, e.1 ≠ sid := by
  obtain ⟨st2, hfold, hinv1, hinv2⟩ :=
    foldlM_stopStatStep_ok stop_results stop_stats (IngestState.mk [] [] 0) hall
      (fun b hbm => absurd hbm (List.not_mem_nil b))
      (fun e he => absurd he (List.not_mem_nil e))
  refine ⟨st2.executed ++ [st2.batch], ?_, ?_⟩
  · unfold ingest_stop_stats_by_time
    rw [hfold]
    rfl
  · intro sid hsid b hbm e hem heq
    rcases List.mem_append.mp hbm with h | h
    · exact hinv1 b h e hem (by rw [heq]; exact hsid)
    · rw [List.mem_singleton] at h
      subst h
      exact hinv2 e hem (by rw [heq]; exact hsid)

/-- Detail rows used by the C8 witness: stop A has one row, stop B has a
zero-row result, every other stop is absent. -/
def sampleStopResults : String → Option (List Int) :=
  fun sid => if sid = "A" then some [7] else if sid = "B" then some [] else none

/-- Statistics value used by the C8 witness. -/
def sampleStats : Stats := ⟨0, 0, 1, 0, 0⟩

/-- Witness for C8 at a concrete input. -/
theorem ingest_stop_stats_by_time_skips_empty_witness :
    ∃ batches, ingest_stop_stats_by_time [("A", sampleStats), ("B", sampleStats)]
        sampleStopResults = .ok batches
      ∧ ∀ sid, sampleStopResults sid = some [] →
          ∀ b ∈ batches, ∀ e ∈ b, e.1 ≠ sid :=
  ingest_stop_stats_by_time_skips_empty [("A", sampleStats), ("B", sampleStats)]
    sampleStopResults (by decide)

/-! ### C9 -/

/-- C9: re-serialising every tuple extracted by read_position_update in
the original field order reproduces the input records exactly; in
particular every copied field is preserved and the timestamp conversion
from integer epoch seconds to a UTC instant is exact (it inverts to the
original integer). -/
theorem read_position_update_roundtrip (data : List VehiclePosition)
    (upload_time : UTCTime) :
    (read_position_update data upload_time).map reserializePosition = data := by
  induction data with
  | nil => rfl
  | cons u rest ih =>
    simp only [read_position_update, List.map_cons] at ih ⊢
    rw [ih]
    rfl

/-! ### C10 -/

/-- C10: get_stop_info returns the None sentinel — it cannot raise —
whenever any required key is missing: the stop sequence, the stop id, the
arrival sub-object or its delay or time field, or the departure
sub-object or its delay field; and such a stop-time update contributes no
stop observation. -/
theorem get_stop_info_none_on_missing_field (stop : StopTimeUpdate)
    (h : stop.stopSequence = none ∨ stop.stopId = none ∨ stop.arrival = none
      ∨ (∃ a, stop.arrival = some a ∧ (a.delay = none ∨ a.time = none))
      ∨ stop.departure = none
      ∨ (∃ dp, stop.departure = some dp ∧ dp.delay = none)) :
    get_stop_info stop = none ∧ ∀ sid, stopDelaysOf [stop] sid = [] := by
  have hnone : get_stop_info stop = none := by
    obtain ⟨sq, ar, dp, sid⟩ := stop
    rcases sq with _ | q
    · rfl
    rcases ar with _ | ⟨ad, at2⟩
    · rfl
    rcases ad with _ | ad2
    · rfl
    rcases at2 with _ | at3
    · rfl
    rcases dp with _ | ⟨dd⟩
    · rfl
    rcases dd with _ | dd2
    · rfl
    rcases sid with _ | s2
    · rfl
    · simp at h
  exact ⟨hnone, fun sid => by simp [stopDelaysOf, hnone]⟩

/-- Witness for C10: a stop-time update missing only the arrival delay
yields the None sentinel and contributes nothing. -/
theorem get_stop_info_none_on_missing_field_witness :
    get_stop_info ⟨some 1, some ⟨none, some 100⟩, some ⟨some 7⟩, some "S1"⟩ = none
    ∧ ∀ sid, stopDelaysOf [⟨some 1, some ⟨none, some 100⟩, some ⟨some 7⟩, some "S1"⟩] sid = [] :=
  get_stop_info_none_on_missing_field _
    (Or.inr (Or.inr (Or.inr (Or.inl ⟨⟨none, some 100⟩, rfl, Or.inl rfl⟩))))

end Translytics
